import Mathlib

/-!
Shallow embedding of the Enigma machine emulator (src/enigma.py).

Conventions of the embedding:
  - Letters and strings are represented by their character codes (Nat);
    a trigram or an alphabet string becomes a list of codes.
  - Python integers are Nat where the source value is provably nonnegative,
    and Int where the source can go negative (notch of the reflector,
    intermediate signal arithmetic).  Python `%` on a positive modulus is
    Int.emod, which is likewise nonnegative.
  - A Python list indexing with a possibly out-of-range or negative index
    is modelled by pyGet (negative indices wrap from the end, as in Python;
    a fully out-of-range index is none = uncaught IndexError).  Lookups
    that are in range by construction use List.getD.
  - The mutable Rotor / Enigma objects become structures passed and
    returned explicitly; the left/right adjacency pointers of the source
    become the fixed slot chain right-middle-left-reflector of the
    three-rotor assembly.
-/

namespace Enigma

/-- Character codes of a string, used for the scrambled alphabet strings
of the rotor catalog. -/
def strCodes (s : String) : List Nat :=
  s.toList.map (fun ch => ch.toNat)

/-- Character codes shifted to alphabet positions 0-25, as in
`[ ord(letter)-65 for letter in list( out_alphabet ) ]`. -/
def strAlphabet (s : String) : List Nat :=
  s.toList.map (fun ch => ch.toNat - 65)

/-- Python list indexing `l[i]`: a negative index wraps from the end of the
list; an index out of the range [-len, len) raises IndexError (none). -/
def pyGet (l : List Nat) (i : Int) : Option Nat :=
  if 0 ≤ i then
    if i < (l.length : Int) then some (l.getD i.toNat 0) else none
  else
    if 0 ≤ (l.length : Int) + i then some (l.getD ((l.length : Int) + i).toNat 0) else none

/-- Rotor state: the immutable A-ring wiring, the effective (ring-shifted)
forward and backward alphabets, the turnover notch, the rotational
position and the ring setting.  Mirrors the attributes of class Rotor. -/
structure Rotor where
  base : List Nat      -- A_ring_setting_alphabet (immutable)
  out : List Nat       -- out_alphabet_out (effective forward alphabet)
  back : List Nat      -- out_alphabet_back
  notch : Int          -- ord(notch_letter) - 65 (negative for the reflector default)
  position : Nat
  ring : Nat           -- ring_setting
  deriving Repr, DecidableEq

namespace Rotor

/-- Rotor._back_alphabet: iterates over the VALUES of the forward alphabet
and sets back_alph[out_alphabet[v]] = v for each value v.  (List.set is a
no-op out of range; the source would raise, but every catalog alphabet is
a permutation of 0-25 so all writes are in range.) -/
def back_alphabet (out_alphabet : List Nat) : List Nat :=
  out_alphabet.foldl
    (fun back_alph character_position =>
      back_alph.set (out_alphabet.getD character_position 0) character_position)
    (List.replicate 26 0)

/-- Rotor.__init__: position 0, ring setting 0, effective alphabet equal to
the A-ring alphabet, backward alphabet derived from it.  The notch
argument is a character code (the source takes a one-letter string). -/
def init (out_alphabet : String) (notchCode : Nat) : Rotor :=
  let a := strAlphabet out_alphabet
  { base := a
    out := a
    back := back_alphabet a
    notch := (notchCode : Int) - 65
    position := 0
    ring := 0 }

/-- Rotor.encode_out. -/
def encode_out (ro : Rotor) (code : Nat) : Nat :=
  ro.out.getD code 0

/-- Rotor.encode_back. -/
def encode_back (ro : Rotor) (code : Nat) : Nat :=
  ro.back.getD code 0

/-- Rotor.set_position: position = (ord(letter) - (65 + ring_setting)) % 26,
with Python nonnegative modulus. -/
def set_position (ro : Rotor) (letterCode : Nat) : Rotor :=
  { ro with position := (((letterCode : Int) - (65 + (ro.ring : Int))) % 26).toNat }

/-- Rotor.increment_position. -/
def increment_position (ro : Rotor) : Rotor :=
  { ro with position := (ro.position + 1) % 26 }

/-- Rotor.set_ring: ring_setting = ord(letter) - 65; for a nonzero setting
the effective alphabet is base[-r:] + base[:-r] with every code shifted by
+r mod 26; the backward alphabet is recomputed. -/
def set_ring (ro : Rotor) (letterCode : Nat) : Rotor :=
  let r := letterCode - 65
  let out :=
    if r = 0 then ro.base
    else
      ((ro.base.drop (ro.base.length - r)) ++ (ro.base.take (ro.base.length - r))).map
        (fun code => (code + r) % 26)
  { ro with ring := r, out := out, back := back_alphabet out }

/-- Rotor.get_window_numeral: (position + ring_setting) % 26. -/
def get_window_numeral (ro : Rotor) : Nat :=
  (ro.position + ro.ring) % 26

/-- Rotor.get_window_letter, as a character code. -/
def get_window_letter (ro : Rotor) : Nat :=
  ((ro.position + ro.ring) % 26) + 65

/-- Rotor.alphabet: the effective forward alphabet as character codes. -/
def alphabet (ro : Rotor) : List Nat :=
  ro.out.map (fun code => code + 65)

end Rotor

/-- The rotor catalog of Enigma.__init__ (rotors I-V with their notches
Q, E, V, J, Z given as character codes). -/
def rotors : List Rotor :=
  [ Rotor.init "EKMFLGDQVZNTOWYHXUSPAIBRCJ" 81,
    Rotor.init "AJDKSIRUXBLHWTMCQGZNPYFVOE" 69,
    Rotor.init "BDFHJLCPRTXVZNYEIWGAKMUSQO" 86,
    Rotor.init "ESOVPZJAYQUIRHXLNFTGKDCMWB" 74,
    Rotor.init "VZBRGITYUPSDNHLXAWMJQOFECK" 90 ]

/-- The Wide-B reflector: a Rotor with the default notch argument
(the character %, code 37, hence notch value -28). -/
def reflectorB : Rotor :=
  Rotor.init "YRUHQSLDPXNGOKMIEBFZCWVJAT" 37

/-- Machine state: the three assembled rotors, the reflector, the
plugboard table and the STATIC flag of class Enigma.  The left/right
adjacency pointers of _assemble_rotors become the fixed slot chain
rotorR.left = rotorM, rotorM.left = rotorL, rotorL.left = reflector,
reflector.right = rotorL. -/
structure Machine where
  rotorL : Rotor
  rotorM : Rotor
  rotorR : Rotor
  reflector : Rotor
  plugboard : List Nat
  STATIC : Bool
  deriving Repr, DecidableEq

/-- Enigma.set_rings: apply the three ring-setting letters (codes) to the
left, middle, right rotors. -/
def set_rings (m : Machine) (t1 t2 t3 : Nat) : Machine :=
  { m with rotorL := m.rotorL.set_ring t1,
           rotorM := m.rotorM.set_ring t2,
           rotorR := m.rotorR.set_ring t3 }

/-- Enigma.set_positions: set the start positions from the three letters
(codes) of the indicator trigram. -/
def set_positions (m : Machine) (t1 t2 t3 : Nat) : Machine :=
  { m with rotorL := m.rotorL.set_position t1,
           rotorM := m.rotorM.set_position t2,
           rotorR := m.rotorR.set_position t3 }

/-- Enigma.get_window: the three window letters (codes) of the left,
middle and right rotors. -/
def get_window (m : Machine) : List Nat :=
  [m.rotorL.get_window_letter, m.rotorM.get_window_letter, m.rotorR.get_window_letter]

/-- The plugboard table built by Enigma._configure: the identity
list(range(0,26)), then for each bigram (a,b) of letter codes the two
assignments plugboard[a-65] = b-65 and plugboard[b-65] = a-65, in order. -/
def plugboard_table (pairs : List (Nat × Nat)) : List Nat :=
  pairs.foldl
    (fun t bigram =>
      (t.set (bigram.1 - 65) (bigram.2 - 65)).set (bigram.2 - 65) (bigram.1 - 65))
    (List.range 26)

/-- Enigma._configure: pick the rotors by 1-based catalog index (the
digits of rotor_selection), assemble, apply the ring settings, build the
plugboard table, then set the rotor positions from the indicator.
STATIC is false after Enigma.__init__. -/
def configure (s1 s2 s3 : Nat) (r1 r2 r3 : Nat) (pairs : List (Nat × Nat))
    (i1 i2 i3 : Nat) : Machine :=
  let m : Machine :=
    { rotorL := rotors.getD (s1 - 1) reflectorB
      rotorM := rotors.getD (s2 - 1) reflectorB
      rotorR := rotors.getD (s3 - 1) reflectorB
      reflector := reflectorB
      plugboard := plugboard_table pairs
      STATIC := false }
  set_positions (set_rings m r1 r2 r3) i1 i2 i3

/-- The default machine of Enigma(): rotors I, II, III, ring settings AAA,
empty plugboard, indicator AAA. -/
def defaultEnigma : Machine :=
  configure 1 2 3 65 65 65 [] 65 65 65

/-- Enigma.step specialised to the leftmost rotor: its carry is computed
by the source but leads nowhere, because rotor_L is not rotor_R (no
double-step branch) and rotor_L.left is the reflector (no carry
recursion); only the increment remains. -/
def stepL (m : Machine) : Machine :=
  { m with rotorL := m.rotorL.increment_position }

/-- Enigma.step specialised to the middle rotor: carry is compared against
the notch before incrementing; the double-step branch does not apply
(rotor_M is not rotor_R); on carry the left rotor is stepped. -/
def stepM (m : Machine) : Machine :=
  let carry := ((m.rotorM.get_window_numeral : Int) = m.rotorM.notch)
  let m1 := { m with rotorM := m.rotorM.increment_position }
  if carry then stepL m1 else m1

/-- Enigma.step on the rightmost rotor: carry is compared against the
notch before incrementing; after the increment, the double-step branch
steps rotor_M when the middle window sits on the middle notch and carry
is false; then the carry branch steps rotor_M when carry is true. -/
def stepR (m : Machine) : Machine :=
  let carry := ((m.rotorR.get_window_numeral : Int) = m.rotorR.notch)
  let m1 := { m with rotorR := m.rotorR.increment_position }
  let m2 :=
    if ((m1.rotorM.get_window_numeral : Int) = m1.rotorM.notch) ∧ ¬carry
    then stepM m1 else m1
  if carry then stepM m2 else m2

/-- Enigma.encypher: plugboard lookup on ord(letter)-65 with Python index
semantics (the only lookup that can be out of range), stepping of the
rightmost rotor unless STATIC, the rightward pass through rotors R, M, L
with the frame renormalisations of the source, the reflector, the
leftward pass through L, M, R, and the final letter code.  The plugboard
is NOT applied on the way out, exactly as in the source.  Returns the
output letter code and the mutated machine; none models the uncaught
IndexError of an out-of-range plugboard access. -/
def encypher (m : Machine) (letterCode : Nat) : Option (Nat × Machine) :=
  let input_code : Int := (letterCode : Int) - 65
  match pyGet m.plugboard input_code with
  | none => none
  | some plugged =>
    let m := if ¬m.STATIC then stepR m else m
    -- the way out, to the reflector (rotors R, M, L)
    let exit1 := m.rotorR.encode_out ((plugged + m.rotorR.position) % 26)
    let in1 := (((exit1 : Int) - m.rotorR.position + m.rotorM.position) % 26).toNat
    let exit2 := m.rotorM.encode_out in1
    let in2 := (((exit2 : Int) - m.rotorM.position + m.rotorL.position) % 26).toNat
    let exit3 := m.rotorL.encode_out in2
    let in3 := (((exit3 : Int) - m.rotorL.position + m.reflector.position) % 26).toNat
    -- turnaround in the reflector; reflector.right is rotor_L
    let exit4 := m.reflector.encode_out in3
    let in4 := (((exit4 : Int) + m.rotorL.position) % 26).toNat
    -- the way back (rotors L, M, R)
    let exit5 := m.rotorL.encode_back in4
    let in5 := (((exit5 : Int) - m.rotorL.position + m.rotorM.position) % 26).toNat
    let exit6 := m.rotorM.encode_back in5
    let in6 := (((exit6 : Int) - m.rotorM.position + m.rotorR.position) % 26).toNat
    let exit7 := m.rotorR.encode_back in6
    let in7 := (((exit7 : Int) - m.rotorR.position) % 26).toNat
    some (in7 + 65, m)

/-- Encypher a list of letter codes in sequence, threading the machine
state; none as soon as one call fails. -/
def encypherList (m : Machine) : List Nat → Option (List Nat × Machine)
  | [] => some ([], m)
  | c :: cs =>
    match encypher m c with
    | none => none
    | some (r, m1) =>
      match encypherList m1 cs with
      | none => none
      | some (rs, m2) => some (r :: rs, m2)

/-- The three stepping slots of the assembly; the reflector is not a slot
because the carry guard of Enigma.step excludes it. -/
inductive Slot
  | L
  | M
  | R
  deriving DecidableEq, Repr

/-- The rotor sitting in a slot. -/
def slotRotor : Slot → Machine → Rotor
  | Slot.L, m => m.rotorL
  | Slot.M, m => m.rotorM
  | Slot.R, m => m.rotorR

/-- Window numeral of the rotor in a slot. -/
def winOf (s : Slot) (m : Machine) : Nat :=
  (slotRotor s m).get_window_numeral

/-- Notch of the rotor in a slot. -/
def notchOf (s : Slot) (m : Machine) : Int :=
  (slotRotor s m).notch

/-- Increment the position of the rotor in a slot. -/
def incAt : Slot → Machine → Machine
  | Slot.L, m => { m with rotorL := m.rotorL.increment_position }
  | Slot.M, m => { m with rotorM := m.rotorM.increment_position }
  | Slot.R, m => { m with rotorR := m.rotorR.increment_position }

/-- The left neighbor of a slot along the recursion chain of Enigma.step:
rotor_R.left is rotor_M, rotor_M.left is rotor_L, and rotor_L.left is the
reflector, which the carry guard of the source excludes (none). -/
def leftOf : Slot → Option Slot
  | Slot.R => some Slot.M
  | Slot.M => some Slot.L
  | Slot.L => none

/-- Enigma.step as the generic recursive procedure of the source, with an
explicit fuel bounding the recursion depth (none = fuel exhausted before
the cascade finished).  Each level: compute carry before incrementing,
increment, take the double-step branch only for the rightmost slot, then
take the carry branch unless the left neighbor is the reflector. -/
def stepFuel : Nat → Slot → Machine → Option Machine
  | 0, _, _ => none
  | fuel + 1, s, m =>
    let carry := ((winOf s m : Int) = notchOf s m)
    let m1 := incAt s m
    let afterDouble :=
      if s = Slot.R ∧ ((winOf Slot.M m1 : Int) = notchOf Slot.M m1) ∧ ¬carry
      then stepFuel fuel Slot.M m1
      else some m1
    match afterDouble with
    | none => none
    | some m2 =>
      match leftOf s with
      | none => some m2
      | some sL => if carry then stepFuel fuel sL m2 else some m2

/-- The machine configured with rotors I, II, III, ring settings AAA,
plugboard pairs AN and PF, indicator AAA (the plugboard scenario of the
spec and of the tests of the source). -/
def plugEnigmaANPF : Machine :=
  configure 1 2 3 65 65 65 [(65, 78), (80, 70)] 65 65 65

/-- The machine configured with the overlapping plugboard pairs AB and AC
(the letter A appears in both pairs). -/
def overlapEnigma : Machine :=
  configure 1 2 3 65 65 65 [(65, 66), (65, 67)] 65 65 65

/-- A catalog rotor with a ring setting applied, indexed by catalog slot
and ring-setting offset. -/
def ringedRotor (k : Fin 5) (r : Fin 26) : Rotor :=
  (rotors.getD k.val reflectorB).set_ring (65 + r.val)

/-- Boolean check that back is the two-sided inverse of out on 0-25 and
that out maps into 0-25. -/
def isInverseOn26 (back out : List Nat) : Bool :=
  (List.range 26).all fun i =>
    out.getD i 0 < 26 && back.getD (out.getD i 0) 0 == i && out.getD (back.getD i 0) 0 == i

/-- Boolean check that a list has pairwise distinct entries. -/
def distinctAll : List Nat → Bool
  | [] => true
  | x :: xs => (xs.all fun y => !(x == y)) && distinctAll xs

/-- Boolean check that a rotor has a forward alphabet that is a bijection
of 0-25 (length 26, no duplicate entries, entries below 26) whose
backward alphabet is its exact two-sided inverse. -/
def ringClosureOk (ro : Rotor) : Bool :=
  (ro.out.length == 26) && distinctAll ro.out && isInverseOn26 ro.back ro.out

/-- Exhaustive check of ringClosureOk over the whole catalog and all 26
ring-setting letters. -/
def ringClosureCheck : Bool :=
  (List.range 5).all fun k =>
    (List.range 26).all fun r =>
      ringClosureOk ((rotors.getD k reflectorB).set_ring (65 + r))

/-- Check that the effective forward alphabet of rotor I under ring
offset r is the base wiring rotated by r with outputs shifted by +r
mod 26, at every index. -/
def rotationOkAt (r : Nat) : Bool :=
  let ro := (rotors.getD 0 reflectorB).set_ring (65 + r)
  (List.range 26).all fun i =>
    ro.out.getD i 0 == (((rotors.getD 0 reflectorB).base.getD ((i + 26 - r) % 26) 0) + r) % 26

/-- Exhaustive check of rotationOkAt over all 26 ring-setting offsets. -/
def ringRotationCheck : Bool :=
  (List.range 26).all fun r => rotationOkAt r

end Enigma

namespace Enigma

/-- Claim C3: with rotors I, II, III, ring settings AAA and empty plugboard,
stepping the rightmost rotor once from indicator AEV yields window
letters B, F, W (a full cascade turnover), and stepping once from
indicator AEW yields window letters B, F, X (the middle rotor advances by
double-stepping although the right rotor was not on its notch). -/
theorem c3_cascade_and_double_step :
    get_window (stepR (configure 1 2 3 65 65 65 [] 65 69 86)) = strCodes "BFW" ∧
    get_window (stepR (configure 1 2 3 65 65 65 [] 65 69 87)) = strCodes "BFX" := by
  decide

/-- Claim C4: with the default configuration (rotors I, II, III, reflector
Wide-B, ring settings AAA, empty plugboard, stepping enabled, indicator
AAA), enciphering the letter A five consecutive times produces exactly
the output letters B, D, Z, G, O. -/
theorem c4_five_As :
    (encypherList defaultEnigma [65, 65, 65, 65, 65]).map (fun p => p.1)
      = some (strCodes "BDZGO") := by
  decide

/-- Claim C1 (failing-input evaluation): under rotors I, II, III, ring settings
AAA, plugboard pairs AN and PF and indicator AAA, enciphering A yields Y
(code 89), but enciphering Y under the same configuration and indicator
yields N (code 78), not A: the source applies the plugboard only at the
entry of the signal path, so the cipher is not reciprocal once the
plugboard is non-empty. -/
theorem c1_plugboard_breaks_reciprocity :
    (encypher plugEnigmaANPF 65).map (fun p => p.1) = some 89 ∧
    (encypher plugEnigmaANPF 89).map (fun p => p.1) = some 78 ∧
    (encypher plugEnigmaANPF 89).map (fun p => p.1) ≠ some 65 := by
  decide

/-- Claim C2 (failing-input evaluation): encypher performs no input validation:
called on the non-letter character @ (code 64, alphabet code -1), the
default machine does not fail — the Python negative index reads
plugboard[-1], the rightmost rotor steps from position 0 to position 1,
and a letter is returned. -/
theorem c2_no_validation_on_encypher :
    (encypher defaultEnigma 64).isSome = true ∧
    (encypher defaultEnigma 64).map (fun p => p.2.rotorR.position) = some 1 ∧
    defaultEnigma.rotorR.position = 0 := by
  decide

/-- Claim C8 (failing-input evaluation): configuring the plugboard with the
overlapping pairs AB and AC raises no error and yields a table with
table[0] = 2 and table[1] = 0, so table[table[1]] = 2 is not 1: the
resulting plugboard is not an involution. -/
theorem c8_overlapping_pairs_accepted :
    overlapEnigma.plugboard.getD 0 0 = 2 ∧
    overlapEnigma.plugboard.getD 1 0 = 0 ∧
    overlapEnigma.plugboard.getD (overlapEnigma.plugboard.getD 1 0) 0 ≠ 1 := by
  decide

/-- Claim C7: set_ring with offset k turns the effective forward alphabet into
the base wiring cyclically rotated by k positions with every output value
shifted by +k mod 26 (shown for every offset and index on rotor I), and
concretely ring setting C on rotor I yields the forward alphabet
ELGMOHNIFSXBPVQYAJZWURCKDT. -/
theorem c7_ring_setting_rotation :
    (∀ r : Fin 26, ∀ i : Fin 26,
      ((rotors.getD 0 reflectorB).set_ring (65 + r.val)).out.getD i.val 0
        = (((rotors.getD 0 reflectorB).base.getD ((i.val + 26 - r.val) % 26) 0) + r.val) % 26) ∧
    Rotor.alphabet ((rotors.getD 0 reflectorB).set_ring 67)
      = strCodes "ELGMOHNIFSXBPVQYAJZWURCKDT" := by
  refine ⟨?_, by decide⟩
  have h : ringRotationCheck = true := by decide
  intro r i
  have h1 : rotationOkAt r.val = true :=
    List.all_eq_true.mp h r.val (List.mem_range.mpr r.isLt)
  simp only [rotationOkAt] at h1
  have h2 := List.all_eq_true.mp h1 i.val (List.mem_range.mpr i.isLt)
  exact eq_of_beq h2

/-- Stepping the middle rotor never touches the rightmost rotor. -/
theorem stepM_rotorR (m : Machine) : (stepM m).rotorR = m.rotorR := by
  simp only [stepM, stepL]
  split_ifs <;> rfl

/-- Stepping the rightmost rotor increments it exactly once, whatever the
turnover branches do to the other rotors. -/
theorem stepR_rotorR (m : Machine) : (stepR m).rotorR = m.rotorR.increment_position := by
  simp only [stepR]
  split_ifs <;> simp [stepM_rotorR]

/-- Claim C5: with stepping enabled (STATIC false), any encypher call that
returns a result leaves the rightmost rotor at (previous position + 1)
mod 26 — it advances exactly once per character, never more, never
backwards. -/
theorem c5_stepping_monotonicity (m : Machine) (h : m.STATIC = false) (c : Nat) :
    (encypher m c).map (fun p => p.2.rotorR.position)
      = (encypher m c).map (fun _ => (m.rotorR.position + 1) % 26) := by
  cases hp : pyGet m.plugboard ((c : Int) - 65) with
  | none => simp [encypher, hp]
  | some plugged => simp [encypher, hp, h, stepR_rotorR, Rotor.increment_position]

/-- Witness for c5_stepping_monotonicity at the default machine and the
letter A. -/
theorem c5_stepping_monotonicity_witness :
    defaultEnigma.STATIC = false ∧
    (encypher defaultEnigma 65).map (fun p => p.2.rotorR.position)
      = (encypher defaultEnigma 65).map (fun _ => (defaultEnigma.rotorR.position + 1) % 26) :=
  ⟨rfl, c5_stepping_monotonicity defaultEnigma rfl 65⟩

/-- One fuel level suffices for the leftmost slot: its left neighbor is
the reflector, so the cascade stops there. -/
theorem stepFuel_L (f : Nat) (m : Machine) :
    stepFuel (f + 1) Slot.L m = some (stepL m) := by
  simp [stepFuel, leftOf, incAt, stepL]

/-- Two fuel levels suffice for the middle slot: at most one recursive
call, into the leftmost slot. -/
theorem stepFuel_M (f : Nat) (m : Machine) :
    stepFuel (f + 1 + 1) Slot.M m = some (stepM m) := by
  by_cases hc : ((m.rotorM.get_window_numeral : Int) = m.rotorM.notch)
  · simp [stepFuel, leftOf, incAt, hc, stepM, stepL, winOf, notchOf, slotRotor, stepFuel_L]
  · simp [stepFuel, leftOf, incAt, hc, stepM, stepL, winOf, notchOf, slotRotor]

/-- Three fuel levels suffice for the rightmost slot. -/
theorem stepFuel_R (f : Nat) (m : Machine) :
    stepFuel (f + 1 + 1 + 1) Slot.R m = some (stepR m) := by
  by_cases hc : ((m.rotorR.get_window_numeral : Int) = m.rotorR.notch)
  · simp [stepFuel, leftOf, incAt, hc, stepR, stepM, stepL, winOf, notchOf, slotRotor, stepFuel_M]
    split <;> rfl
  · by_cases hm : ((m.rotorM.get_window_numeral : Int) = m.rotorM.notch)
    · simp [stepFuel, leftOf, incAt, hc, hm, stepR, stepM, stepL, winOf, notchOf, slotRotor,
        stepFuel_M]
    · simp [stepFuel, leftOf, incAt, hc, hm, stepR, stepM, stepL, winOf, notchOf, slotRotor]

/-- The leftmost step leaves the reflector unchanged. -/
theorem stepL_reflector (m : Machine) : (stepL m).reflector = m.reflector := rfl

/-- The middle step leaves the reflector unchanged. -/
theorem stepM_reflector (m : Machine) : (stepM m).reflector = m.reflector := by
  simp only [stepM, stepL]
  split_ifs <;> rfl

/-- The rightmost step leaves the reflector unchanged. -/
theorem stepR_reflector (m : Machine) : (stepR m).reflector = m.reflector := by
  simp only [stepR]
  split_ifs <;> simp [stepM_reflector]

/-- Claim C9: for every machine state, the recursive stepping cascade started
at the rightmost rotor terminates within recursion depth 3 (fuel 3 always
suffices and reproduces the cascade result), and the reflector is never
stepped. -/
theorem c9_step_cascade_bounded (m : Machine) :
    stepFuel 3 Slot.R m = some (stepR m) ∧ (stepR m).reflector = m.reflector := by
  constructor
  · have h := stepFuel_R 0 m
    norm_num at h
    exact h
  · exact stepR_reflector m

/-- Claim C10: for every machine, all ring settings and every indicator trigram
of letters A-Z, setting the rotor positions from the trigram and reading
the window returns exactly that trigram: the indicator is interpreted in
window coordinates, independently of the ring settings. -/
theorem c10_window_roundtrip (m : Machine) (rL rM rR pL pM pR : Fin 26) :
    get_window (set_positions (set_rings m (65 + rL.val) (65 + rM.val) (65 + rR.val))
        (65 + pL.val) (65 + pM.val) (65 + pR.val))
      = [65 + pL.val, 65 + pM.val, 65 + pR.val] := by
  have h1 := rL.isLt
  have h2 := rM.isLt
  have h3 := rR.isLt
  have h4 := pL.isLt
  have h5 := pM.isLt
  have h6 := pR.isLt
  simp only [get_window, set_positions, set_rings, Rotor.set_position, Rotor.set_ring,
    Rotor.get_window_letter, List.cons.injEq, and_true]
  refine ⟨?_, ?_, ?_⟩ <;> omega

set_option maxHeartbeats 3000000 in
/-- Claim C6: for every catalog rotor and every ring-setting letter, the
backward alphabet is the exact two-sided inverse of the forward alphabet
on 0-25, and the forward alphabet remains a bijection of 0-25 (length 26,
no duplicates, values below 26). -/
theorem c6_permutation_closure :
    ∀ k : Fin 5, ∀ r : Fin 26, ringClosureOk (ringedRotor k r) = true := by
  have h : ringClosureCheck = true := by decide
  intro k r
  have h5 := List.all_eq_true.mp h k.val (List.mem_range.mpr k.isLt)
  exact List.all_eq_true.mp h5 r.val (List.mem_range.mpr r.isLt)

end Enigma
